import Mathlib

/-!
Verification development for the `ts-requiem-api` leaderboard service.

The embedding below translates the program's core (`src/index.js`,
`src/store.js`) into Lean:

* JavaScript numbers are modelled by `JsNum`: either `NaN` or a rational
  (the claims depend only on ordering and equality of finite values, never
  on binary floating-point rounding).
* The shared `records` array is a `List Record`; in-place mutation of a
  found element becomes replacement of the first matching element.
* External library calls (`crypto.createHash("sha256")`, the `Number`
  coercion of form-field strings) are parameters of the handler
  definitions, so every theorem holds for an arbitrary digest function
  and an arbitrary coercion.
* Filesystem and network writes become explicit effect fields in the
  result structures (`blobWrite`, `saved`, `wrote`, `renamedTo`).
-/

namespace TsRequiem

/-- A JavaScript number: `NaN` or a finite value (modelled as a rational). -/
inductive JsNum where
  | nan : JsNum
  | num (q : Rat) : JsNum
deriving DecidableEq

/-- JavaScript strict equality `===` on numbers: `NaN` is equal to nothing,
including itself. -/
def jsEq : JsNum → JsNum → Bool
  | .num a, .num b => a = b
  | _, _ => false

/-- JavaScript `<` on numbers: any comparison involving `NaN` is `false`. -/
def jsLt : JsNum → JsNum → Bool
  | .num a, .num b => a < b
  | _, _ => false

/-- Model of `x.toLowerCase()` (character-wise lowering; digests are ASCII hex). -/
def jsToLower (s : String) : String := ⟨s.data.map Char.toLower⟩

/-- One element of the `records` array (`src/store.js` / `src/index.js`).
Field names follow the source. `ghostKey`/`ghostPath`/`sha256` are `null`able
strings, `size` a `null`able byte count. -/
structure Record where
  id : Nat
  driver__steamID64 : String
  name : String
  car : JsNum
  track : JsNum
  layout : JsNum
  condition : JsNum
  weather : JsNum
  timing : JsNum
  ghostLength : JsNum
  ghostKey : Option String
  ghostPath : Option String
  sha256 : Option String
  size : Option Nat
  createdAt : String
deriving DecidableEq

/-- JavaScript truthiness of a `null`able string (`null` and `""` are falsy). -/
def truthyOptStr : Option String → Bool
  | none => false
  | some s => !s.isEmpty

/-- Function `nextId()` (index.js:58–61): one greater than the maximum `id` in the
collection (`records.reduce((m, r) => Math.max(m, Number(r.id ?? 0)), 0) + 1`). -/
def nextId (records : List Record) : Nat :=
  records.foldl (fun m r => max m r.id) 0 + 1

/-- Replace the first element satisfying `f` by its image under `g`
(the in-place mutation of the object returned by `records.find`). -/
def updateFirst (f : Record → Bool) (g : Record → Record) : List Record → List Record
  | [] => []
  | r :: rs => if f r then g r :: rs else r :: updateFirst f g rs

/-- The request body of `POST /leaderboard` after `leaderboardSchema`
validation (index.js:78–88): five integer category codes, a finite `timing`,
an integer `ghostLength`. -/
structure LeaderboardPayload where
  driver__steamID64 : String
  name : String
  car : Int
  track : Int
  layout : Int
  condition : Int
  weather : Int
  timing : Rat
  ghostLength : Int
deriving DecidableEq

/-- Predicate `keyMatch` (index.js:98–104): strict equality on the driver id and the
five category codes. -/
def keyMatch (p : LeaderboardPayload) (r : Record) : Bool :=
  r.driver__steamID64 = p.driver__steamID64 &&
  jsEq r.track (.num p.track) &&
  jsEq r.layout (.num p.layout) &&
  jsEq r.condition (.num p.condition) &&
  jsEq r.weather (.num p.weather) &&
  jsEq r.car (.num p.car)

/-- Outcome tag of `POST /leaderboard`. -/
inductive SubmitStatus where
  | created : SubmitStatus
  | updated_best : SubmitStatus
  | ignored_slower : SubmitStatus
deriving DecidableEq

/-- Result of one `POST /leaderboard` call: the status sent to the client,
the collection afterwards, and whether `saveRecords()` ran. -/
structure SubmitResult where
  status : SubmitStatus
  store : List Record
  saved : Bool
deriving DecidableEq

/-- The record pushed on the `created` branch (index.js:109–117). -/
def newLeaderboardRecord (records : List Record) (p : LeaderboardPayload)
    (now : String) : Record :=
  { id := nextId records
    driver__steamID64 := p.driver__steamID64
    name := p.name
    car := .num p.car
    track := .num p.track
    layout := .num p.layout
    condition := .num p.condition
    weather := .num p.weather
    timing := .num p.timing
    ghostLength := .num p.ghostLength
    ghostKey := none
    ghostPath := none
    sha256 := none
    size := none
    createdAt := now }

/-- The `POST /leaderboard` handler body after schema validation
(index.js:90–132). `now` stands for `new Date().toISOString()`. -/
def submit (records : List Record) (p : LeaderboardPayload) (now : String) :
    SubmitResult :=
  match records.find? (keyMatch p) with
  | none =>
      { status := .created
        store := records ++ [newLeaderboardRecord records p now]
        saved := true }
  | some existing =>
      if jsLt (.num p.timing) existing.timing then
        { status := .updated_best
          store := updateFirst (keyMatch p)
            (fun r => { r with
              timing := .num p.timing
              ghostLength := .num p.ghostLength
              name := p.name
              createdAt := now }) records
          saved := true }
      else
        { status := .ignored_slower, store := records, saved := false }

/-- The eleven field names `POST /ghost` requires in the multipart field map
(index.js:160–172). -/
def requiredFields : List String :=
  ["driver__steamID64", "name", "car", "track", "layout", "condition",
   "weather", "timing", "ghostLength", "sha256", "size"]

/-- Outcome of `POST /ghost`: the two 400 rejections and the success body
(index.js:156–177, 182–184, 265–270). -/
inductive GhostOutcome where
  | validationError (msg : String) : GhostOutcome
  | integrityError (computed provided : String) : GhostOutcome
  | success (storedAs : String) (whereStored : String) (size : Nat) : GhostOutcome
deriving DecidableEq

/-- Result of one `POST /ghost` call: the response, the collection afterwards,
the blob write performed (key or path, together with the bytes), and whether
`saveRecords()` ran. -/
structure GhostResult where
  outcome : GhostOutcome
  store : List Record
  blobWrite : Option (String × List Nat)
  saved : Bool
deriving DecidableEq

/-- The values index.js:186–201 derives from the validated field map and
the uploaded bytes: the seven `Number(·)`-coerced fields, the two strings,
the lowercased declared digest, and the actual byte length (`size` is
`ghostBuffer.length` — the declared `size` field is never read). -/
structure GhostParsed where
  track : JsNum
  layout : JsNum
  condition : JsNum
  weather : JsNum
  car : JsNum
  timing : JsNum
  ghostLength : JsNum
  steamId : String
  nm : String
  provided : String
  size : Nat
deriving DecidableEq

/-- Computation of the parsed upload values (index.js:181, 186–198). -/
def ghostParsed (toNum : String → JsNum) (fields : String → Option String)
    (buf : List Nat) : GhostParsed :=
  { track := toNum ((fields "track").getD "")
    layout := toNum ((fields "layout").getD "")
    condition := toNum ((fields "condition").getD "")
    weather := toNum ((fields "weather").getD "")
    car := toNum ((fields "car").getD "")
    timing := toNum ((fields "timing").getD "")
    ghostLength := toNum ((fields "ghostLength").getD "")
    steamId := (fields "driver__steamID64").getD ""
    nm := (fields "name").getD ""
    provided := jsToLower ((fields "sha256").getD "")
    size := buf.length }

/-- The record lookup predicate of `POST /ghost` (index.js:223–231): strict
equality on the driver id and the five category codes. -/
def ghostKeyMatch (gp : GhostParsed) (r : Record) : Bool :=
  r.driver__steamID64 = gp.steamId &&
  jsEq r.track gp.track && jsEq r.layout gp.layout &&
  jsEq r.condition gp.condition && jsEq r.weather gp.weather &&
  jsEq r.car gp.car

/-- The in-place mutation of a matching record (index.js:233–242). -/
def ghostUpdate (gp : GhostParsed) (gKey gPath : Option String) (now : String)
    (r : Record) : Record :=
  { r with
    sha256 := some gp.provided
    size := some gp.size
    timing := gp.timing
    ghostLength := gp.ghostLength
    name := gp.nm
    createdAt := now
    ghostKey := gKey
    ghostPath := gPath }

/-- The record pushed when no existing record matches the upload key
(index.js:244–260). -/
def newGhostRecord (records : List Record) (gp : GhostParsed)
    (gKey gPath : Option String) (now : String) : Record :=
  { id := nextId records
    driver__steamID64 := gp.steamId
    name := gp.nm
    car := gp.car
    track := gp.track
    layout := gp.layout
    condition := gp.condition
    weather := gp.weather
    timing := gp.timing
    ghostLength := gp.ghostLength
    ghostKey := gKey
    ghostPath := gPath
    sha256 := some gp.provided
    size := some gp.size
    createdAt := now }

/-- The `POST /ghost` handler (index.js:138–271) after the multipart parts
have been collected into `ghostBuffer` (the bytes of the `ghost` file part,
if any) and `fields` (the text-field map).

`sha256hex` stands for `crypto.createHash("sha256").update(·).digest("hex")`
and `toNum` for JavaScript’s `Number(·)` string coercion — both are external
library functions, so they are parameters. `r2Enabled` selects the backend,
`localGhostDir` is `LOCAL_GHOST_DIR`, `now` is `new Date().toISOString()`. -/
def ghostHandler (sha256hex : List Nat → String) (toNum : String → JsNum)
    (r2Enabled : Bool) (localGhostDir : String) (now : String)
    (records : List Record) (ghostBuffer : Option (List Nat))
    (fields : String → Option String) : GhostResult :=
  match ghostBuffer with
  | none =>
      { outcome := .validationError "Missing ghost file field \x27ghost\x27."
        store := records, blobWrite := none, saved := false }
  | some buf =>
    match requiredFields.find? (fun k => (fields k).isNone) with
    | some k =>
        { outcome := .validationError ("Missing field \x27" ++ k ++ "\x27.")
          store := records, blobWrite := none, saved := false }
    | none =>
      let computed := sha256hex buf
      let gp := ghostParsed toNum fields buf
      if computed ≠ gp.provided then
        { outcome := .integrityError computed gp.provided
          store := records, blobWrite := none, saved := false }
      else
        let objectKey := "ghosts/" ++ gp.provided ++ ".tsreplay"
        let localPath := localGhostDir ++ "/" ++ gp.provided ++ ".tsreplay"
        let gKey : Option String := if r2Enabled then some objectKey else none
        let gPath : Option String := if r2Enabled then none else some localPath
        let store' :=
          if (records.find? (ghostKeyMatch gp)).isSome then
            updateFirst (ghostKeyMatch gp) (ghostUpdate gp gKey gPath now) records
          else
            records ++ [newGhostRecord records gp gKey gPath now]
        { outcome := .success
            (if r2Enabled then objectKey else gp.provided ++ ".tsreplay")
            (if r2Enabled then "r2" else "local") gp.size
          store := store'
          blobWrite := some ((if r2Enabled then objectKey else localPath), buf)
          saved := true }

/-- The sort comparator `(a, b) => a.timing - b.timing` (index.js:302, 365),
as the induced "`a` strictly precedes `b`" test: a negative difference puts
`a` first. For finite values `a.timing - b.timing < 0` iff
`a.timing < b.timing`; a `NaN` difference is not negative, so `NaN` never
strictly precedes (the runtime's stable sort then keeps the original
order). -/
def timingLt (a b : Record) : Bool :=
  match a.timing, b.timing with
  | .num x, .num y => x < y
  | _, _ => false

/-- Stable insertion step: `x` goes in front of the first element it
strictly precedes, hence after every earlier tie. -/
def insertByTiming (x : Record) : List Record → List Record
  | [] => [x]
  | y :: ys => if timingLt x y then x :: y :: ys else y :: insertByTiming x ys

/-- Model of `list.sort((a, b) => a.timing - b.timing)` — a stable sort by `timing`
(ECMAScript `Array.prototype.sort` is required to be stable). -/
def sortByTiming : List Record → List Record
  | [] => []
  | x :: xs => insertByTiming x (sortByTiming xs)

/-- The query string of `GET /getRecords` and `GET /ghost/bytes` after the
`Number(·)` coercion of each present parameter: `none` is an omitted
parameter. -/
structure Query where
  track : Option JsNum
  layout : Option JsNum
  condition : Option JsNum
  weather : Option JsNum
  car : Option JsNum
deriving DecidableEq

/-- Helper `match` (index.js:354): `-1` is the match-any wildcard, otherwise strict
equality. -/
def qmatch (wanted actual : JsNum) : Bool :=
  if jsEq wanted (.num (-1)) then true else jsEq wanted actual

/-- The filter of `GET /getRecords` (index.js:348–363): each omitted
parameter defaults to `-1` (`Number(q.track ?? -1)`). -/
def recMatches (q : Query) (r : Record) : Bool :=
  qmatch (q.track.getD (.num (-1))) r.track &&
  qmatch (q.layout.getD (.num (-1))) r.layout &&
  qmatch (q.condition.getD (.num (-1))) r.condition &&
  qmatch (q.weather.getD (.num (-1))) r.weather &&
  qmatch (q.car.getD (.num (-1))) r.car

/-- The projection returned by `GET /getRecords` (index.js:367–377): `name`
is included only when truthy (non-empty). -/
structure PublicRecord where
  id : Nat
  driver__steamID64 : String
  car : JsNum
  track : JsNum
  layout : JsNum
  condition : JsNum
  weather : JsNum
  timing : JsNum
  name : Option String
deriving DecidableEq

/-- Projection of one record (index.js:367–377). -/
def toPublic (r : Record) : PublicRecord :=
  { id := r.id
    driver__steamID64 := r.driver__steamID64
    car := r.car
    track := r.track
    layout := r.layout
    condition := r.condition
    weather := r.weather
    timing := r.timing
    name := if r.name.isEmpty then none else some r.name }

/-- The `GET /getRecords` handler (index.js:345–380): filter, sort ascending
by timing, project. -/
def listRecords (records : List Record) (q : Query) : List PublicRecord :=
  (sortByTiming (records.filter (recMatches q))).map toPublic

/-- The query string of `GET /ghost/bytes` (index.js:278–284): the five
category parameters plus the optional `steamid`. -/
structure GhostQuery where
  track : Option JsNum
  layout : Option JsNum
  condition : Option JsNum
  weather : Option JsNum
  car : Option JsNum
  steamid : Option String
deriving DecidableEq

/-- The candidate filter of `GET /ghost/bytes` (index.js:286–294): strict
equality on the five codes — each omitted parameter defaults to `0`
(`Number(q.track ?? 0)`) — and a truthy `ghostKey` or `ghostPath`. -/
def ghostCandidate (q : GhostQuery) (r : Record) : Bool :=
  jsEq r.track (q.track.getD (.num 0)) &&
  jsEq r.layout (q.layout.getD (.num 0)) &&
  jsEq r.condition (q.condition.getD (.num 0)) &&
  jsEq r.weather (q.weather.getD (.num 0)) &&
  jsEq r.car (q.car.getD (.num 0)) &&
  (truthyOptStr r.ghostKey || truthyOptStr r.ghostPath)

/-- Expression `q.steamid ? String(q.steamid) : null` (index.js:284). -/
def effectiveSteamid (q : GhostQuery) : Option String :=
  match q.steamid with
  | some s => if s.isEmpty then none else some s
  | none => none

/-- The record-selection part of the `GET /ghost/bytes` handler
(index.js:277–303): filter, optionally restrict to one driver, 404 when
empty, otherwise the minimum-timing candidate (`candidates[0]` after the
sort). The subsequent byte streaming from R2 or disk is I/O outside the
record store. -/
def bestGhost (records : List Record) (q : GhostQuery) : Option Record :=
  let candidates := records.filter (ghostCandidate q)
  let candidates :=
    match effectiveSteamid q with
    | some s => candidates.filter (fun r => r.driver__steamID64 = s)
    | none => candidates
  match candidates with
  | [] => none
  | _ => (sortByTiming candidates).head?

/-- What `JSON.parse` does on the (trimmed, non-blank) file content: yields
an array, yields a non-array value, or throws. `JSON.parse` is an external
library function, so the content is modelled by its parse outcome. -/
inductive ParseOutcome where
  | arr (xs : List Record) : ParseOutcome
  | nonArray : ParseOutcome
  | malformed : ParseOutcome
deriving DecidableEq

/-- The persisted records file as `loadRecords` observes it: blank after
`trim()`, or content with a given parse outcome. -/
inductive FileContent where
  | blank : FileContent
  | json (p : ParseOutcome) : FileContent
deriving DecidableEq

/-- Effects and result of one `loadRecords()` call: the collection returned,
the content (if any) written to the records file, and the recovery path (if
any) the original file was renamed to. Both variants are total functions —
every branch, including the catch branches, returns — so boot never raises. -/
structure LoadResult where
  result : List Record
  wrote : Option String
  renamedTo : Option String
deriving DecidableEq

/-- Function `loadRecords()` of `src/store.js` as imported by `src/index.js`
(store.js:9–28): missing file → write `"[]"` and return empty; blank →
empty; array → the array; non-array → empty; `JSON.parse` throws → the
catch returns empty, touching nothing. `file = none` means the file does
not exist. -/
def loadRecords (file : Option FileContent) : LoadResult :=
  match file with
  | none => { result := [], wrote := some "[]", renamedTo := none }
  | some .blank => { result := [], wrote := none, renamedTo := none }
  | some (.json (.arr xs)) => { result := xs, wrote := none, renamedTo := none }
  | some (.json .nonArray) => { result := [], wrote := none, renamedTo := none }
  | some (.json .malformed) => { result := [], wrote := none, renamedTo := none }

/-- The recovery filename `records.broken.${Date.now()}.json` of the
quarantine variant. -/
def brokenName (tsNow : Nat) : String :=
  "records.broken." ++ toString tsNow ++ ".json"

/-- Function `loadRecords()` of the alternate `src/store.js` variant shipped in the
repository (the file whose header comment reads `// src/store.js`,
lines 11–30): identical to `loadRecords` except that the catch branch
renames the broken file to `records.broken.${Date.now()}.json` and writes a
fresh `"[]"`, inside an inner try/catch that swallows filesystem failures
(`innerFsFails`). -/
def loadRecordsQuarantine (file : Option FileContent) (tsNow : Nat)
    (innerFsFails : Bool) : LoadResult :=
  match file with
  | none => { result := [], wrote := some "[]", renamedTo := none }
  | some .blank => { result := [], wrote := none, renamedTo := none }
  | some (.json (.arr xs)) => { result := xs, wrote := none, renamedTo := none }
  | some (.json .nonArray) => { result := [], wrote := none, renamedTo := none }
  | some (.json .malformed) =>
      if innerFsFails then { result := [], wrote := none, renamedTo := none }
      else { result := [], wrote := some "[]",
             renamedTo := some (brokenName tsNow) }

/-- Non-strict timing comparison used by the sortedness statements:
true exactly when both values are finite and ordered. -/
def jsLe : JsNum → JsNum → Bool
  | .num a, .num b => a ≤ b
  | _, _ => false

/-- Digit-string value, for the concrete model of `Number(·)`. -/
def digitsToNat : List Char → Option Nat
  | [] => some 0
  | c :: cs =>
      if c.isDigit then
        (digitsToNat cs).map (fun n => (c.toNat - 48) * 10 ^ cs.length + n)
      else none

/-- Concrete model of JavaScript's `Number(·)` on form-field strings,
faithful on the literals used in this development: the empty string is `0`,
a non-empty decimal digit string is its value, anything else is `NaN`. -/
def jsNumber (s : String) : JsNum :=
  match s.data with
  | [] => .num 0
  | c :: cs =>
      match digitsToNat (c :: cs) with
      | some n => .num n
      | none => .nan

/-- Structural equality of the composite (driver, car, track, layout,
condition, weather) key of two records. -/
def sameKey (a b : Record) : Bool :=
  a.driver__steamID64 = b.driver__steamID64 &&
  a.car = b.car && a.track = b.track && a.layout = b.layout &&
  a.condition = b.condition && a.weather = b.weather

/-- True when the value is a finite number (not `NaN`). -/
def isNum : JsNum → Bool
  | .num _ => true
  | .nan => false

/-- True when all five category codes of the record are finite numbers. -/
def goodKey (r : Record) : Bool :=
  isNum r.car && isNum r.track && isNum r.layout &&
  isNum r.condition && isNum r.weather

/-- The at-most-one-record-per-composite-key invariant as the claim states
it: no two distinct positions hold the same key. -/
def keyUniqueStrict (l : List Record) : Prop :=
  l.Pairwise (fun a b => sameKey a b = false)

/-- The key-uniqueness invariant the code actually maintains: no two
distinct positions hold the same key when the first has all-finite category
codes (a `NaN` code never compares equal under `===`, so `NaN`-keyed
records are invisible to the duplicate check). -/
def keyUnique (l : List Record) : Prop :=
  l.Pairwise (fun a b => goodKey a = true → sameKey a b = false)

/-- The complete selection predicate of `GET /ghost/bytes`: the category
and blob-reference filter, then the optional driver filter. -/
def ghostSelected (q : GhostQuery) (r : Record) : Bool :=
  ghostCandidate q r &&
  (match effectiveSteamid q with
   | some s => r.driver__steamID64 = s
   | none => true)

/-! ### Helper lemmas -/

theorem timingLt_irrefl (a : Record) : timingLt a a = false := by
  unfold timingLt
  cases a.timing <;> simp

theorem timingLt_asymm {a b : Record} (h : timingLt a b = true) :
    timingLt b a = false := by
  unfold timingLt at *
  cases ha : a.timing <;> cases hb : b.timing <;> simp_all
  linarith

theorem timingLt_trans_neg {x y z : Record} (hxy : timingLt x y = true)
    (hzy : timingLt z y = false) : timingLt z x = false := by
  unfold timingLt at *
  cases hx : x.timing <;> cases hy : y.timing <;> cases hz : z.timing <;>
    simp_all
  linarith

theorem mem_insertByTiming {a x : Record} {l : List Record} :
    a ∈ insertByTiming x l ↔ a = x ∨ a ∈ l := by
  induction l with
  | nil => simp [insertByTiming]
  | cons y ys ih =>
      unfold insertByTiming
      by_cases h : timingLt x y = true
      · simp [h]
      · simp [h, ih]
        tauto

theorem insertByTiming_ne_nil (x : Record) (l : List Record) :
    insertByTiming x l ≠ [] := by
  cases l with
  | nil => simp [insertByTiming]
  | cons y ys =>
      unfold insertByTiming
      by_cases h : timingLt x y = true <;> simp [h]

theorem pairwise_insertByTiming {x : Record} {l : List Record}
    (h : l.Pairwise (fun a b => timingLt b a = false)) :
    (insertByTiming x l).Pairwise (fun a b => timingLt b a = false) := by
  induction l with
  | nil => simp [insertByTiming]
  | cons y ys ih =>
      rw [List.pairwise_cons] at h
      obtain ⟨hy, hys⟩ := h
      unfold insertByTiming
      by_cases hlt : timingLt x y = true
      · rw [if_pos hlt, List.pairwise_cons]
        refine ⟨?_, List.pairwise_cons.mpr ⟨hy, hys⟩⟩
        intro z hz
        rcases List.mem_cons.mp hz with rfl | hz'
        · exact timingLt_asymm hlt
        · exact timingLt_trans_neg hlt (hy z hz')
      · rw [if_neg hlt, List.pairwise_cons]
        refine ⟨?_, ih hys⟩
        intro z hz
        rcases mem_insertByTiming.mp hz with rfl | hz'
        · simpa using hlt
        · exact hy z hz'

theorem pairwise_sortByTiming (l : List Record) :
    (sortByTiming l).Pairwise (fun a b => timingLt b a = false) := by
  induction l with
  | nil => simp [sortByTiming]
  | cons x xs ih => exact pairwise_insertByTiming ih

theorem mem_sortByTiming {a : Record} {l : List Record} :
    a ∈ sortByTiming l ↔ a ∈ l := by
  induction l with
  | nil => simp [sortByTiming]
  | cons x xs ih =>
      unfold sortByTiming
      rw [mem_insertByTiming, ih, List.mem_cons]

theorem sortByTiming_ne_nil {l : List Record} (h : l ≠ []) :
    sortByTiming l ≠ [] := by
  cases l with
  | nil => exact absurd rfl h
  | cons x xs => exact insertByTiming_ne_nil x (sortByTiming xs)

theorem mem_updateFirst {f : Record → Bool} {g : Record → Record}
    {x : Record} {l : List Record} (h : x ∈ updateFirst f g l) :
    x ∈ l ∨ ∃ y ∈ l, x = g y := by
  induction l with
  | nil => simp [updateFirst] at h
  | cons r rs ih =>
      unfold updateFirst at h
      by_cases hf : f r = true
      · rw [if_pos hf] at h
        rcases List.mem_cons.mp h with rfl | h'
        · exact Or.inr ⟨r, List.mem_cons_self r rs, rfl⟩
        · exact Or.inl (List.mem_cons_of_mem r h')
      · rw [if_neg hf] at h
        rcases List.mem_cons.mp h with rfl | h'
        · exact Or.inl (List.mem_cons_self x rs)
        · rcases ih h' with h'' | ⟨y, hy, hxy⟩
          · exact Or.inl (List.mem_cons_of_mem r h'')
          · exact Or.inr ⟨y, List.mem_cons_of_mem r hy, hxy⟩

theorem find?_updateFirst {f : Record → Bool} (g : Record → Record)
    {x : Record} {l : List Record} (h : l.find? f = some x) :
    ∃ i, l[i]? = some x ∧ updateFirst f g l = l.set i (g x) := by
  induction l with
  | nil => simp [List.find?] at h
  | cons r rs ih =>
      by_cases hf : f r = true
      · rw [List.find?_cons_of_pos _ hf] at h
        injection h with h
        subst h
        exact ⟨0, by simp, by simp [updateFirst, hf]⟩
      · rw [List.find?_cons_of_neg _ (by simpa using hf)] at h
        obtain ⟨i, hi, hset⟩ := ih h
        refine ⟨i + 1, by simpa using hi, ?_⟩
        simp [updateFirst, hf, hset]

theorem pairwise_updateFirst {R : Record → Record → Prop}
    {f : Record → Bool} {g : Record → Record} {l : List Record}
    (h : l.Pairwise R) (hg₁ : ∀ a b, R a b → R (g a) b)
    (hg₂ : ∀ a b, R a b → R a (g b)) :
    (updateFirst f g l).Pairwise R := by
  induction l with
  | nil => simp [updateFirst]
  | cons r rs ih =>
      rw [List.pairwise_cons] at h
      obtain ⟨hr, hrs⟩ := h
      unfold updateFirst
      by_cases hf : f r = true
      · rw [if_pos hf, List.pairwise_cons]
        exact ⟨fun b hb => hg₁ _ _ (hr b hb), hrs⟩
      · rw [if_neg hf, List.pairwise_cons]
        refine ⟨?_, ih hrs⟩
        intro b hb
        rcases mem_updateFirst hb with hb' | ⟨y, hy, rfl⟩
        · exact hr b hb'
        · exact hg₂ _ _ (hr y hy)

theorem find?_congr {p q : String → Bool} {l : List String}
    (h : ∀ a ∈ l, p a = q a) : l.find? p = l.find? q := by
  induction l with
  | nil => rfl
  | cons x xs ih =>
      have hx := h x (List.mem_cons_self x xs)
      by_cases hp : p x = true
      · rw [List.find?_cons_of_pos _ hp, List.find?_cons_of_pos _ (hx ▸ hp)]
      · rw [List.find?_cons_of_neg _ (by simpa using hp),
          List.find?_cons_of_neg _ (by simp [← hx, hp]),
          ih (fun a ha => h a (List.mem_cons_of_mem x ha))]

/-! ### Sample inputs for concrete instances -/

/-- A sample validated leaderboard submission. -/
def samplePayload : LeaderboardPayload :=
  { driver__steamID64 := "76561198000000001"
    name := "Alice"
    car := 1
    track := 2
    layout := 0
    condition := 0
    weather := 0
    timing := 90
    ghostLength := 3 }

/-- The record `samplePayload` creates (id 1, no blob fields). -/
def sampleRecord : Record :=
  { id := 1
    driver__steamID64 := "76561198000000001"
    name := "Alice"
    car := .num 1
    track := .num 2
    layout := .num 0
    condition := .num 0
    weather := .num 0
    timing := .num 90
    ghostLength := .num 3
    ghostKey := none
    ghostPath := none
    sha256 := none
    size := none
    createdAt := "t0" }

/-! ### Claim theorems -/

/-- C4: when an existing record for the key has `timing` not strictly
greater than the candidate, `submit` returns `ignored_slower`, leaves the
collection exactly as it was (so no record field changes), and does not
save; and `saveRecords` runs exactly on the `created` and `updated_best`
outcomes. -/
theorem submit_ignored_slower_frame :
    (∀ (records : List Record) (p : LeaderboardPayload) (now : String)
        (ex : Record),
        records.find? (keyMatch p) = some ex →
        jsLt (.num p.timing) ex.timing = false →
        submit records p now =
          { status := .ignored_slower, store := records, saved := false }) ∧
    (∀ (records : List Record) (p : LeaderboardPayload) (now : String),
        (submit records p now).saved = true ↔
          ((submit records p now).status = .created ∨
           (submit records p now).status = .updated_best)) := by
  constructor
  · intro records p now ex hfind hlt
    simp [submit, hfind, hlt]
  · intro records p now
    rcases hfind : records.find? (keyMatch p) with _ | ex
    · simp [submit, hfind]
    · by_cases hlt : jsLt (.num p.timing) ex.timing = true <;>
        simp [submit, hfind, hlt]

/-- Witness for `submit_ignored_slower_frame`: a concrete equal-timing
resubmission is ignored and mutates nothing. -/
theorem submit_ignored_slower_frame_witness :
    [sampleRecord].find? (keyMatch samplePayload) = some sampleRecord ∧
    jsLt (.num samplePayload.timing) sampleRecord.timing = false ∧
    submit [sampleRecord] samplePayload "t1" =
      { status := .ignored_slower, store := [sampleRecord], saved := false } :=
  ⟨by decide, by decide,
    submit_ignored_slower_frame.1 [sampleRecord] samplePayload "t1"
      sampleRecord (by decide) (by decide)⟩

/-- C8: when an existing record for the key has strictly greater `timing`,
`submit` returns `updated_best`, saves, and replaces exactly that record by
a copy whose `timing`, `ghostLength`, `name` and `createdAt` are the
submitted values — every other field (`id`, `sha256`, `ghostKey`,
`ghostPath`, `size`, the driver id and the five category codes) is kept,
and every other record is untouched. -/
theorem submit_updated_best_frame :
    ∀ (records : List Record) (p : LeaderboardPayload) (now : String)
      (ex : Record),
      records.find? (keyMatch p) = some ex →
      jsLt (.num p.timing) ex.timing = true →
      (submit records p now).status = .updated_best ∧
      (submit records p now).saved = true ∧
      ∃ i, records[i]? = some ex ∧
        (submit records p now).store = records.set i
          { ex with
            timing := .num p.timing
            ghostLength := .num p.ghostLength
            name := p.name
            createdAt := now } := by
  intro records p now ex hfind hlt
  refine ⟨by simp [submit, hfind, hlt], by simp [submit, hfind, hlt], ?_⟩
  obtain ⟨i, hi, hset⟩ := find?_updateFirst
    (fun r => { r with
      timing := .num p.timing
      ghostLength := .num p.ghostLength
      name := p.name
      createdAt := now }) hfind
  exact ⟨i, hi, by simp [submit, hfind, hlt, hset]⟩

/-- Witness for `submit_updated_best_frame`: a concrete faster resubmission
updates the four fields in place and keeps `id` 1. -/
theorem submit_updated_best_frame_witness :
    [sampleRecord].find? (keyMatch { samplePayload with timing := 88 }) =
      some sampleRecord ∧
    jsLt (.num (88 : Rat)) sampleRecord.timing = true ∧
    (submit [sampleRecord] { samplePayload with timing := 88 } "t1").status =
      .updated_best :=
  ⟨by decide, by decide,
    (submit_updated_best_frame [sampleRecord]
      { samplePayload with timing := 88 } "t1" sampleRecord
      (by decide) (by decide)).1⟩

/-- A stand-in digest function for concrete instances: every payload hashes
to `"aa"`. (The handler theorems are proved for an arbitrary digest
function; concrete runs may pick any.) -/
def sampleDigestFn : List Nat → String := fun _ => "aa"

/-- A ghost-upload field map on the same key as `samplePayload`, declaring
digest `"aa"`, a slower timing of 100, and a (never trusted) size of 999. -/
def sampleGhostFields : String → Option String := fun k =>
  if k = "driver__steamID64" then some "76561198000000001"
  else if k = "name" then some "Alice"
  else if k = "car" then some "1"
  else if k = "track" then some "2"
  else if k = "layout" then some "0"
  else if k = "condition" then some "0"
  else if k = "weather" then some "0"
  else if k = "timing" then some "100"
  else if k = "ghostLength" then some "3"
  else if k = "sha256" then some "aa"
  else if k = "size" then some "999"
  else none

/-- C1 counterexample: the ghost-upload record update replaces `timing`
unconditionally, so a matching upload with a slower time RAISES the stored
`timing` — from 90 to 100 here — refuting the claim that `timing` only ever
moves to a strictly smaller value under the core's operations. -/
theorem ghost_upload_can_increase_timing :
    sampleRecord.timing = .num 90 ∧
    (ghostHandler sampleDigestFn jsNumber false "data/ghosts" "t1"
        [sampleRecord] (some [7]) sampleGhostFields).store.map
      (fun r => r.timing) = [.num 100] ∧
    jsLt (.num 90) (.num 100) = true := by decide

/-- C1 amended: `BestTimeUpsert.submit` never increases any stored record's
`timing` — a record is returned unchanged or with a strictly smaller
`timing` — while the ghost-upload update replaces the matched record's
`timing` unconditionally with the uploaded value (which may be larger). -/
theorem timing_monotonicity_amended :
    (∀ (records : List Record) (p : LeaderboardPayload) (now : String)
        (i : Nat) (r r' : Record),
        records[i]? = some r →
        (submit records p now).store[i]? = some r' →
        r' = r ∨ jsLt r'.timing r.timing = true) ∧
    (∀ (sha256hex : List Nat → String) (toNum : String → JsNum)
        (r2Enabled : Bool) (dir now : String) (records : List Record)
        (buf : Option (List Nat)) (fields : String → Option String)
        (i : Nat) (r r' : Record),
        records[i]? = some r →
        (ghostHandler sha256hex toNum r2Enabled dir now records buf
            fields).store[i]? = some r' →
        r' = r ∨ r'.timing = toNum ((fields "timing").getD "")) := by
  constructor
  · intro records p now i r r' hr hr'
    rcases hfind : records.find? (keyMatch p) with _ | ex
    · left
      simp only [submit, hfind] at hr'
      rw [List.getElem?_append, if_pos ((List.getElem?_eq_some.1 hr).1),
        hr] at hr'
      exact (Option.some_inj.mp hr').symm
    · by_cases hlt : jsLt (.num p.timing) ex.timing = true
      · obtain ⟨i₀, hi₀, hset⟩ := find?_updateFirst
          (fun r => { r with
            timing := .num p.timing
            ghostLength := .num p.ghostLength
            name := p.name
            createdAt := now }) hfind
        simp only [submit, hfind, hlt, if_true] at hr'
        rw [hset] at hr'
        by_cases hii : i₀ = i
        · subst hii
          rw [List.getElem?_set_self ((List.getElem?_eq_some.1 hi₀).1)] at hr'
          have hrex : r = ex := by
            rw [hr] at hi₀
            exact Option.some_inj.mp hi₀
          right
          have hr'' := (Option.some_inj.mp hr').symm
          rw [hr'', hrex]
          exact hlt
        · rw [List.getElem?_set_ne hii, hr] at hr'
          exact Or.inl (Option.some_inj.mp hr').symm
      · left
        simp only [submit, hfind, hlt, if_false, Bool.false_eq_true] at hr'
        rw [hr] at hr'
        exact (Option.some_inj.mp hr').symm
  · intro sha256hex toNum r2Enabled dir now records buf fields i r r' hr hr'
    cases buf with
    | none =>
        left
        simp only [ghostHandler] at hr'
        rw [hr] at hr'
        exact (Option.some_inj.mp hr').symm
    | some b =>
        rcases hk : requiredFields.find? (fun k => (fields k).isNone) with _ | k
        · by_cases hne : sha256hex b ≠ (ghostParsed toNum fields b).provided
          · left
            simp only [ghostHandler, hk, if_pos hne] at hr'
            rw [hr] at hr'
            exact (Option.some_inj.mp hr').symm
          · by_cases hex : (records.find? (ghostKeyMatch
                (ghostParsed toNum fields b))).isSome = true
            · obtain ⟨ex, hexeq⟩ := Option.isSome_iff_exists.mp hex
              obtain ⟨i₀, hi₀, hset⟩ := find?_updateFirst
                (ghostUpdate (ghostParsed toNum fields b)
                  (if r2Enabled then
                      some ("ghosts/" ++ (ghostParsed toNum fields b).provided
                        ++ ".tsreplay")
                    else none)
                  (if r2Enabled then none
                    else some (dir ++ "/" ++
                      (ghostParsed toNum fields b).provided ++ ".tsreplay"))
                  now) hexeq
              simp only [ghostHandler, hk, if_neg hne, hex, if_true] at hr'
              rw [hset] at hr'
              by_cases hii : i₀ = i
              · subst hii
                rw [List.getElem?_set_self
                  ((List.getElem?_eq_some.1 hi₀).1)] at hr'
                right
                rw [(Option.some_inj.mp hr').symm]
                rfl
              · rw [List.getElem?_set_ne hii, hr] at hr'
                exact Or.inl (Option.some_inj.mp hr').symm
            · left
              simp only [ghostHandler, hk, if_neg hne, hex, Bool.false_eq_true,
                if_false] at hr'
              rw [List.getElem?_append, if_pos ((List.getElem?_eq_some.1 hr).1),
                hr] at hr'
              exact (Option.some_inj.mp hr').symm
        · left
          simp only [ghostHandler, hk] at hr'
          rw [hr] at hr'
          exact (Option.some_inj.mp hr').symm

/-- Witness for `timing_monotonicity_amended`: a concrete slower
resubmission leaves the stored record (and its timing) unchanged. -/
theorem timing_monotonicity_amended_witness :
    [sampleRecord][0]? = some sampleRecord ∧
    (submit [sampleRecord] { samplePayload with timing := 95 } "t1").store[0]? =
      some sampleRecord ∧
    (sampleRecord = sampleRecord ∨
      jsLt sampleRecord.timing sampleRecord.timing = true) :=
  ⟨by decide, by decide,
    timing_monotonicity_amended.1 [sampleRecord]
      { samplePayload with timing := 95 } "t1" 0 sampleRecord sampleRecord
      (by decide) (by decide)⟩

/-- C2 counterexample: in `src/store.js` as imported by `src/index.js`, a
document that fails to parse is NOT quarantined — `loadRecords` returns the
empty collection but renames nothing and writes nothing, so neither the
claimed rename to a recovery name nor the fresh empty write happens. -/
theorem load_malformed_no_quarantine :
    (loadRecords (some (.json .malformed))).renamedTo = none ∧
    (loadRecords (some (.json .malformed))).wrote = none ∧
    (loadRecords (some (.json .malformed))).result = [] := by decide

/-- C2 amended: `load()` over an unparsable document never raises and
returns the empty collection in both shipped `store.js` variants; the
variant imported by `index.js` leaves the file untouched (no rename, no
rewrite), while only the alternate variant quarantines — renaming the
original to `records.broken.<timestamp>.json` and writing a fresh empty
document, swallowing even failures of that recovery itself. -/
theorem load_malformed_amended :
    (loadRecords (some (.json .malformed)) =
      { result := [], wrote := none, renamedTo := none }) ∧
    (∀ ts : Nat, loadRecordsQuarantine (some (.json .malformed)) ts false =
      { result := [], wrote := some "[]",
        renamedTo := some (brokenName ts) }) ∧
    (∀ (ts : Nat) (innerFsFails : Bool),
      (loadRecordsQuarantine (some (.json .malformed)) ts
        innerFsFails).result = []) := by
  refine ⟨by decide, fun ts => by simp [loadRecordsQuarantine], ?_⟩
  intro ts b
  cases b <;> simp [loadRecordsQuarantine]

/-- C3: the ghost upload succeeds only when the computed digest of the
received bytes equals the lowercased declared digest; when every required
field is present and the digests differ, the request is rejected with an
integrity error reporting both values, and with no blob write, no record
change and no save. -/
theorem ghost_digest_verification :
    (∀ (sha256hex : List Nat → String) (toNum : String → JsNum)
        (r2Enabled : Bool) (dir now : String) (records : List Record)
        (b : List Nat) (fields : String → Option String)
        (s w : String) (sz : Nat),
        (ghostHandler sha256hex toNum r2Enabled dir now records (some b)
            fields).outcome = .success s w sz →
        sha256hex b = jsToLower ((fields "sha256").getD "")) ∧
    (∀ (sha256hex : List Nat → String) (toNum : String → JsNum)
        (r2Enabled : Bool) (dir now : String) (records : List Record)
        (b : List Nat) (fields : String → Option String),
        (∀ k ∈ requiredFields, (fields k).isSome = true) →
        sha256hex b ≠ jsToLower ((fields "sha256").getD "") →
        ghostHandler sha256hex toNum r2Enabled dir now records (some b)
            fields =
          { outcome := .integrityError (sha256hex b)
              (jsToLower ((fields "sha256").getD ""))
            store := records, blobWrite := none, saved := false }) := by
  constructor
  · intro sha256hex toNum r2Enabled dir now records b fields s w sz hout
    rcases hk : requiredFields.find? (fun k => (fields k).isNone) with _ | k
    · by_cases hne : sha256hex b ≠ (ghostParsed toNum fields b).provided
      · simp only [ghostHandler, hk, if_pos hne] at hout
        exact absurd hout (by simp)
      · exact not_ne_iff.mp hne
    · simp only [ghostHandler, hk] at hout
      exact absurd hout (by simp)
  · intro sha256hex toNum r2Enabled dir now records b fields hall hne
    have hk : requiredFields.find? (fun k => (fields k).isNone) = none := by
      refine List.find?_eq_none.mpr ?_
      intro x hx
      have h := hall x hx
      cases hfx : fields x with
      | none => rw [hfx] at h; simp at h
      | some v => simp
    have hne' : sha256hex b ≠ (ghostParsed toNum fields b).provided := hne
    simp only [ghostHandler, hk, if_pos hne']
    rfl

/-- A field map identical to `sampleGhostFields` except that the declared
digest is `"FF"`, which does not match the computed digest `"aa"`. -/
def mismatchedGhostFields : String → Option String := fun k =>
  if k = "sha256" then some "FF" else sampleGhostFields k

/-- Witness for `ghost_digest_verification`: a concrete upload whose
declared digest lowercases to `"ff"` while the bytes hash to `"aa"` is
rejected with both digests and no effect. -/
theorem ghost_digest_verification_witness :
    (∀ k ∈ requiredFields, (mismatchedGhostFields k).isSome = true) ∧
    sampleDigestFn [7] ≠ jsToLower ((mismatchedGhostFields "sha256").getD "") ∧
    ghostHandler sampleDigestFn jsNumber false "data/ghosts" "t1"
        [sampleRecord] (some [7]) mismatchedGhostFields =
      { outcome := .integrityError "aa" "ff"
        store := [sampleRecord], blobWrite := none, saved := false } :=
  ⟨by decide, by decide,
    ghost_digest_verification.2 sampleDigestFn jsNumber false "data/ghosts"
      "t1" [sampleRecord] [7] mismatchedGhostFields (by decide) (by decide)⟩

/-- C9: the byte size stored on an upload's record and returned to the
caller is the actual length of the received payload, and the client-declared
`size` field never influences the result — two uploads identical except for
the declared size produce the same store and the same response. -/
theorem ghost_size_not_trusted :
    (∀ (sha256hex : List Nat → String) (toNum : String → JsNum)
        (r2Enabled : Bool) (dir now : String) (records : List Record)
        (b : List Nat) (f1 f2 : String → Option String),
        (∀ k, k ≠ "size" → f1 k = f2 k) →
        (f1 "size").isSome = true → (f2 "size").isSome = true →
        ghostHandler sha256hex toNum r2Enabled dir now records (some b) f1 =
          ghostHandler sha256hex toNum r2Enabled dir now records (some b)
            f2) ∧
    (∀ (sha256hex : List Nat → String) (toNum : String → JsNum)
        (r2Enabled : Bool) (dir now : String) (records : List Record)
        (b : List Nat) (fields : String → Option String) (s w : String)
        (sz : Nat),
        (ghostHandler sha256hex toNum r2Enabled dir now records (some b)
            fields).outcome = .success s w sz →
        sz = b.length ∧
        ∀ r ∈ (ghostHandler sha256hex toNum r2Enabled dir now records
            (some b) fields).store, r ∈ records ∨ r.size = some b.length) := by
  constructor
  · intro sha256hex toNum r2Enabled dir now records b f1 f2 h h1 h2
    have hfind : requiredFields.find? (fun k => (f1 k).isNone) =
        requiredFields.find? (fun k => (f2 k).isNone) := by
      apply find?_congr
      intro a _
      by_cases hsz : a = "size"
      · subst hsz
        cases hf1 : f1 "size" with
        | none => rw [hf1] at h1; simp at h1
        | some v =>
            cases hf2 : f2 "size" with
            | none => rw [hf2] at h2; simp at h2
            | some v' => simp
      · rw [h a hsz]
    have hgp : ghostParsed toNum f1 b = ghostParsed toNum f2 b := by
      simp only [ghostParsed, h "track" (by decide), h "layout" (by decide),
        h "condition" (by decide), h "weather" (by decide),
        h "car" (by decide), h "timing" (by decide),
        h "ghostLength" (by decide), h "driver__steamID64" (by decide),
        h "name" (by decide), h "sha256" (by decide)]
    rcases hk : requiredFields.find? (fun k => (f2 k).isNone) with _ | k
    · simp only [ghostHandler, hfind, hk, hgp]
    · simp only [ghostHandler, hfind, hk]
  · intro sha256hex toNum r2Enabled dir now records b fields s w sz hout
    rcases hk : requiredFields.find? (fun k => (fields k).isNone) with _ | k
    · by_cases hne : sha256hex b ≠ (ghostParsed toNum fields b).provided
      · simp only [ghostHandler, hk, if_pos hne] at hout
        exact absurd hout (by simp)
      · constructor
        · simp only [ghostHandler, hk, if_neg hne] at hout
          injection hout with h1 h2 h3
          exact h3.symm
        · intro r hr
          simp only [ghostHandler, hk, if_neg hne] at hr
          by_cases hex : (records.find? (ghostKeyMatch
              (ghostParsed toNum fields b))).isSome = true
          · rw [if_pos hex] at hr
            rcases mem_updateFirst hr with h' | ⟨y, hy, rfl⟩
            · exact Or.inl h'
            · exact Or.inr rfl
          · rw [if_neg hex] at hr
            rcases List.mem_append.mp hr with h' | h'
            · exact Or.inl h'
            · rw [List.mem_singleton.mp h']
              exact Or.inr rfl
    · simp only [ghostHandler, hk] at hout
      exact absurd hout (by simp)

/-- A field map identical to `sampleGhostFields` except for the declared
size (123456 instead of 999). -/
def otherSizeGhostFields : String → Option String := fun k =>
  if k = "size" then some "123456" else sampleGhostFields k

/-- Witness for `ghost_size_not_trusted`: changing only the declared size
leaves the whole result unchanged, concretely. -/
theorem ghost_size_not_trusted_witness :
    (∀ k, k ≠ "size" → sampleGhostFields k = otherSizeGhostFields k) ∧
    (sampleGhostFields "size").isSome = true ∧
    (otherSizeGhostFields "size").isSome = true ∧
    ghostHandler sampleDigestFn jsNumber false "data/ghosts" "t1"
        [sampleRecord] (some [7]) sampleGhostFields =
      ghostHandler sampleDigestFn jsNumber false "data/ghosts" "t1"
        [sampleRecord] (some [7]) otherSizeGhostFields :=
  have h : ∀ k, k ≠ "size" → sampleGhostFields k = otherSizeGhostFields k :=
    fun k hk => by
      simp only [otherSizeGhostFields, if_neg hk]
  ⟨h, by decide, by decide,
    ghost_size_not_trusted.1 sampleDigestFn jsNumber false "data/ghosts" "t1"
      [sampleRecord] [7] sampleGhostFields otherSizeGhostFields h
      (by decide) (by decide)⟩

/-- A ghost-upload field map in which every required key is present but
`car`, `timing` and `ghostLength` hold the non-numeric string `"x"` and
`layout` holds the empty string. -/
def nanGhostFields : String → Option String := fun k =>
  if k = "driver__steamID64" then some "76561198000000002"
  else if k = "name" then some "Bob"
  else if k = "car" then some "x"
  else if k = "track" then some "2"
  else if k = "layout" then some ""
  else if k = "condition" then some "0"
  else if k = "weather" then some "0"
  else if k = "timing" then some "x"
  else if k = "ghostLength" then some "x"
  else if k = "sha256" then some "aa"
  else if k = "size" then some "999"
  else none

/-- C10: the ghost upload rejects with a validation error exactly when the
file part is absent or some required field key is absent — a present but
empty or non-numeric field passes validation — and the `Number`-coerced
`NaN` of a non-numeric field is stored on the record: concretely, an upload
whose `car`, `timing` and `ghostLength` are `"x"` (and whose `layout` is
`""`) succeeds and stores a record with `NaN` in those fields (and `0` for
the empty one). -/
theorem ghost_validation_presence_only :
    (∀ (sha256hex : List Nat → String) (toNum : String → JsNum)
        (r2Enabled : Bool) (dir now : String) (records : List Record)
        (buf : Option (List Nat)) (fields : String → Option String),
        (∃ msg, (ghostHandler sha256hex toNum r2Enabled dir now records buf
            fields).outcome = .validationError msg) ↔
          (buf = none ∨ ∃ k ∈ requiredFields, fields k = none)) ∧
    ((ghostHandler sampleDigestFn jsNumber false "data/ghosts" "t1" []
        (some [7]) nanGhostFields).store.map
      (fun r => (r.car, r.layout, r.timing, r.ghostLength)) =
      [(.nan, .num 0, .nan, .nan)]) := by
  constructor
  · intro sha256hex toNum r2Enabled dir now records buf fields
    constructor
    · rintro ⟨msg, hmsg⟩
      cases buf with
      | none => exact Or.inl rfl
      | some b =>
          right
          rcases hk : requiredFields.find? (fun k => (fields k).isNone)
            with _ | k
          · by_cases hne : sha256hex b ≠ (ghostParsed toNum fields b).provided
            · simp only [ghostHandler, hk, if_pos hne] at hmsg
              exact absurd hmsg (by simp)
            · simp only [ghostHandler, hk, if_neg hne] at hmsg
              exact absurd hmsg (by simp)
          · refine ⟨k, List.mem_of_find?_eq_some hk, ?_⟩
            have := List.find?_some hk
            simpa [Option.isNone_iff_eq_none] using this
    · intro h
      cases buf with
      | none => exact ⟨"Missing ghost file field \x27ghost\x27.", rfl⟩
      | some b =>
          rcases h with h | ⟨k, hk, hfk⟩
          · exact absurd h (by simp)
          · have hsome : (requiredFields.find?
                (fun k => (fields k).isNone)).isSome = true := by
              rw [List.find?_isSome]
              exact ⟨k, hk, by simp [hfk]⟩
            obtain ⟨k', hk'⟩ := Option.isSome_iff_exists.mp hsome
            refine ⟨"Missing field \x27" ++ k' ++ "\x27.", ?_⟩
            simp only [ghostHandler, hk']
  · decide

/-- Witness for `ghost_validation_presence_only`: with every required field
present — even empty or non-numeric — no validation error is possible,
concretely. -/
theorem ghost_validation_presence_only_witness :
    ¬ ∃ msg, (ghostHandler sampleDigestFn jsNumber false "data/ghosts" "t1"
        [] (some [7]) nanGhostFields).outcome = .validationError msg :=
  fun hex =>
    by simpa using
      ((ghost_validation_presence_only.1 sampleDigestFn jsNumber false
        "data/ghosts" "t1" [] (some [7]) nanGhostFields).mp hex).elim
        (fun h => by simp at h)
        (fun h => by revert h; decide)

/-- C6: over any store whose timings are finite (comparing by timing is
meaningless for `NaN`), `listRecords` returns its records sorted
non-decreasingly by `timing` for every filter combination; and passing the
wildcard `-1` for any of the five category fields gives exactly the result
of omitting that field. -/
theorem listRecords_sorted_and_wildcard :
    (∀ (records : List Record) (q : Query),
        (∀ r ∈ records, r.timing ≠ .nan) →
        (listRecords records q).Pairwise
          (fun a b => jsLe a.timing b.timing = true)) ∧
    (∀ (records : List Record) (q : Query),
        listRecords records { q with track := some (.num (-1)) } =
          listRecords records { q with track := none } ∧
        listRecords records { q with layout := some (.num (-1)) } =
          listRecords records { q with layout := none } ∧
        listRecords records { q with condition := some (.num (-1)) } =
          listRecords records { q with condition := none } ∧
        listRecords records { q with weather := some (.num (-1)) } =
          listRecords records { q with weather := none } ∧
        listRecords records { q with car := some (.num (-1)) } =
          listRecords records { q with car := none }) := by
  constructor
  · intro records q hnan
    have hp := pairwise_sortByTiming (records.filter (recMatches q))
    have hp' : (sortByTiming (records.filter (recMatches q))).Pairwise
        (fun a b => jsLe a.timing b.timing = true) := by
      refine hp.imp_of_mem ?_
      intro a b ha hb hab
      have ha' : a.timing ≠ .nan :=
        hnan a (List.mem_filter.mp (mem_sortByTiming.mp ha)).1
      have hb' : b.timing ≠ .nan :=
        hnan b (List.mem_filter.mp (mem_sortByTiming.mp hb)).1
      cases hta : a.timing with
      | nan => exact absurd hta ha'
      | num x =>
          cases htb : b.timing with
          | nan => exact absurd htb hb'
          | num y =>
              simp only [timingLt, hta, htb] at hab
              simp only [jsLe]
              simp only [decide_eq_false_iff_not, not_lt] at hab
              simpa using hab
    exact List.Pairwise.map toPublic (fun a b h => h) hp'
  · intro records q
    exact ⟨rfl, rfl, rfl, rfl, rfl⟩

/-- A second record on a different key with a faster timing. -/
def fasterRecord : Record :=
  { id := 2
    driver__steamID64 := "76561198000000002"
    name := "Bob"
    car := .num 4
    track := .num 2
    layout := .num 0
    condition := .num 0
    weather := .num 0
    timing := .num 70
    ghostLength := .num 5
    ghostKey := none
    ghostPath := none
    sha256 := none
    size := none
    createdAt := "t0" }

/-- Witness for `listRecords_sorted_and_wildcard`: a concrete two-record
store with finite timings lists sorted ascending by timing under the empty
filter. -/
theorem listRecords_sorted_and_wildcard_witness :
    (∀ r ∈ [sampleRecord, fasterRecord], r.timing ≠ .nan) ∧
    (listRecords [sampleRecord, fasterRecord]
        { track := none, layout := none, condition := none, weather := none,
          car := none }).Pairwise
      (fun a b => jsLe a.timing b.timing = true) :=
  ⟨by decide,
    listRecords_sorted_and_wildcard.1 [sampleRecord, fasterRecord]
      { track := none, layout := none, condition := none, weather := none,
        car := none } (by decide)⟩

theorem bestGhost_eq (records : List Record) (q : GhostQuery) :
    bestGhost records q =
      match records.filter (ghostSelected q) with
      | [] => none
      | _ :: _ => (sortByTiming (records.filter (ghostSelected q))).head? := by
  rcases hs : effectiveSteamid q with _ | s
  · have hfil : records.filter (ghostCandidate q) =
        records.filter (ghostSelected q) :=
      List.filter_congr (fun a _ => by simp [ghostSelected, hs])
    simp only [bestGhost, hs, hfil]
    rcases hx : records.filter (ghostSelected q) with _ | ⟨c, cs⟩ <;>
      simp [hx]
  · have hfil : (records.filter (ghostCandidate q)).filter
        (fun r => r.driver__steamID64 = s) =
        records.filter (ghostSelected q) := by
      rw [List.filter_filter]
      exact List.filter_congr (fun a _ => by
        simp [ghostSelected, hs, Bool.and_comm])
    simp only [bestGhost, hs, hfil]
    rcases hx : records.filter (ghostSelected q) with _ | ⟨c, cs⟩ <;>
      simp [hx]

/-- A record on track 5 (all other codes 0) carrying a blob reference. -/
def trackFiveRecord : Record :=
  { id := 3
    driver__steamID64 := "76561198000000003"
    name := "Cara"
    car := .num 0
    track := .num 5
    layout := .num 0
    condition := .num 0
    weather := .num 0
    timing := .num 80
    ghostLength := .num 4
    ghostKey := none
    ghostPath := some "data/ghosts/aa.tsreplay"
    sha256 := some "aa"
    size := some 1
    createdAt := "t0" }

/-- C5 counterexample: `bestGhost` does NOT apply `listRecords`' filtering.
With the same five filters (`track = -1`, the wildcard, and `0` elsewhere),
`listRecords` returns the track-5 record — `-1` matches any track — while
`bestGhost` reports NotFound, because `GET /ghost/bytes` compares every
code by strict equality and has no wildcard (its omitted-parameter default
is `0`, not `-1`). -/
theorem bestGhost_wildcard_counterexample :
    bestGhost [trackFiveRecord]
      { track := some (.num (-1)), layout := some (.num 0),
        condition := some (.num 0), weather := some (.num 0),
        car := some (.num 0), steamid := none } = none ∧
    listRecords [trackFiveRecord]
      { track := some (.num (-1)), layout := some (.num 0),
        condition := some (.num 0), weather := some (.num 0),
        car := some (.num 0) } = [toPublic trackFiveRecord] ∧
    truthyOptStr trackFiveRecord.ghostPath = true := by decide

/-- C5 amended: `bestGhost` filters by strict equality on the five category
codes (omitted parameters defaulting to `0`, with no `-1` wildcard),
restricts to the optional driver filter, requires a truthy blob reference,
and returns a minimum-timing match among the qualifying records — or
NotFound exactly when no record qualifies. -/
theorem bestGhost_strict_filter_amended :
    ∀ (records : List Record) (q : GhostQuery),
      (bestGhost records q = none ↔
        ∀ r ∈ records, ghostSelected q r = false) ∧
      (∀ r, bestGhost records q = some r →
        r ∈ records ∧ ghostSelected q r = true ∧
        ∀ r' ∈ records, ghostSelected q r' = true →
          timingLt r' r = false) := by
  intro records q
  have hbe := bestGhost_eq records q
  rcases hfl : records.filter (ghostSelected q) with _ | ⟨c, cs⟩
  · rw [hfl] at hbe
    constructor
    · refine iff_of_true hbe ?_
      intro r hr
      have := List.filter_eq_nil_iff.mp hfl r hr
      simpa using this
    · intro r hr
      rw [hbe] at hr
      cases hr
  · rw [hfl] at hbe
    have hne : sortByTiming (c :: cs) ≠ [] :=
      sortByTiming_ne_nil (by simp)
    constructor
    · refine iff_of_false ?_ ?_
      · rw [hbe]
        cases hsort : sortByTiming (c :: cs) with
        | nil => exact absurd hsort hne
        | cons b bs => simp
      · intro h
        have : records.filter (ghostSelected q) = [] :=
          List.filter_eq_nil_iff.mpr (fun a ha => by simp [h a ha])
        rw [hfl] at this
        cases this
    · intro r hr
      rw [hbe] at hr
      cases hsort : sortByTiming (c :: cs) with
      | nil => exact absurd hsort hne
      | cons b bs =>
          rw [hsort] at hr
          have hbr : b = r := by simpa using hr
          subst hbr
          have hbmem : b ∈ records.filter (ghostSelected q) := by
            rw [hfl]
            exact mem_sortByTiming.mp (hsort ▸ List.mem_cons_self b bs)
          have hbm := List.mem_filter.mp hbmem
          refine ⟨hbm.1, hbm.2, ?_⟩
          intro r' hr' hsel
          have hr'mem : r' ∈ sortByTiming (c :: cs) := by
            rw [← hfl]
            exact mem_sortByTiming.mpr (List.mem_filter.mpr ⟨hr', hsel⟩)
          rw [hsort] at hr'mem
          rcases List.mem_cons.mp hr'mem with rfl | hr'tail
          · exact timingLt_irrefl r'
          · have hpw := pairwise_sortByTiming (c :: cs)
            rw [hsort] at hpw
            exact (List.pairwise_cons.mp hpw).1 r' hr'tail

/-- Query selecting exactly `trackFiveRecord`'s combo. -/
def trackFiveQuery : GhostQuery :=
  { track := some (.num 5), layout := some (.num 0),
    condition := some (.num 0), weather := some (.num 0),
    car := some (.num 0), steamid := none }

/-- Witness for `bestGhost_strict_filter_amended`: the exact-combo query
finds the track-5 record as the minimum-timing match. -/
theorem bestGhost_strict_filter_amended_witness :
    bestGhost [trackFiveRecord] trackFiveQuery = some trackFiveRecord ∧
    trackFiveRecord ∈ [trackFiveRecord] ∧
    ghostSelected trackFiveQuery trackFiveRecord = true :=
  have h := (bestGhost_strict_filter_amended [trackFiveRecord]
    trackFiveQuery).2 trackFiveRecord (by decide)
  ⟨by decide, h.1, h.2.1⟩

theorem jsEq_self {v : JsNum} (h : isNum v = true) : jsEq v v = true := by
  cases v with
  | nan => simp [isNum] at h
  | num x => simp [jsEq]

theorem keyUnique_append_ghost {records : List Record} {gp : GhostParsed}
    (gKey gPath : Option String) (now : String) (hu : keyUnique records)
    (hnone : records.find? (ghostKeyMatch gp) = none) :
    keyUnique (records ++ [newGhostRecord records gp gKey gPath now]) := by
  rw [keyUnique, List.pairwise_append]
  refine ⟨hu, by simp, ?_⟩
  intro a ha b hb
  simp only [List.mem_singleton] at hb
  subst hb
  intro hgood
  cases hsk : sameKey a (newGhostRecord records gp gKey gPath now) with
  | false => rfl
  | true =>
      exfalso
      apply List.find?_eq_none.mp hnone a ha
      simp only [sameKey, newGhostRecord, Bool.and_eq_true,
        decide_eq_true_eq] at hsk
      obtain ⟨⟨⟨⟨⟨hd, hc⟩, ht⟩, hl⟩, hco⟩, hw⟩ := hsk
      simp only [goodKey, Bool.and_eq_true] at hgood
      obtain ⟨⟨⟨⟨hgc, hgt⟩, hgl⟩, hgco⟩, hgw⟩ := hgood
      simp [ghostKeyMatch, hd, ← hc, ← ht, ← hl, ← hco, ← hw,
        jsEq_self hgc, jsEq_self hgt, jsEq_self hgl, jsEq_self hgco,
        jsEq_self hgw]

/-- C7 counterexample: starting from the empty collection (which trivially
satisfies at-most-one-record-per-key), two identical ghost uploads whose
`car` field is the non-numeric string `"x"` insert two records with the
same composite key — `NaN` never matches under `===`, so the duplicate
check cannot see the first record. -/
theorem duplicate_key_counterexample :
    keyUniqueStrict ([] : List Record) ∧
    ¬ keyUniqueStrict
      (ghostHandler sampleDigestFn jsNumber false "data/ghosts" "t2"
        (ghostHandler sampleDigestFn jsNumber false "data/ghosts" "t1"
          [] (some [7]) nanGhostFields).store
        (some [7]) nanGhostFields).store := by
  constructor
  · exact List.Pairwise.nil
  · unfold keyUniqueStrict
    decide

/-- C7 amended: both core operations insert a new record only when no
existing record matches the key under JavaScript strict equality, and they
preserve at-most-one-record-per-key for every record whose five category
codes are finite; a record with a `NaN` category code never matches, so
only `NaN`-keyed duplicates are possible. -/
theorem key_uniqueness_amended :
    (∀ (records : List Record) (p : LeaderboardPayload) (now : String),
        keyUnique records → keyUnique (submit records p now).store) ∧
    (∀ (sha256hex : List Nat → String) (toNum : String → JsNum)
        (r2Enabled : Bool) (dir now : String) (records : List Record)
        (buf : Option (List Nat)) (fields : String → Option String),
        keyUnique records →
        keyUnique (ghostHandler sha256hex toNum r2Enabled dir now records
          buf fields).store) := by
  constructor
  · intro records p now hu
    rcases hfind : records.find? (keyMatch p) with _ | ex
    · simp only [submit, hfind]
      rw [keyUnique, List.pairwise_append]
      refine ⟨hu, by simp, ?_⟩
      intro a ha b hb
      simp only [List.mem_singleton] at hb
      subst hb
      intro hgood
      cases hsk : sameKey a (newLeaderboardRecord records p now) with
      | false => rfl
      | true =>
          exfalso
          apply List.find?_eq_none.mp hfind a ha
          simp only [sameKey, newLeaderboardRecord, Bool.and_eq_true,
            decide_eq_true_eq] at hsk
          obtain ⟨⟨⟨⟨⟨hd, hc⟩, ht⟩, hl⟩, hco⟩, hw⟩ := hsk
          simp [keyMatch, hd, hc, ht, hl, hco, hw, jsEq]
    · by_cases hlt : jsLt (.num p.timing) ex.timing = true
      · simp only [submit, hfind, hlt, if_true]
        exact pairwise_updateFirst hu (fun a b h => h) (fun a b h => h)
      · simp only [submit, hfind, if_neg hlt]
        exact hu
  · intro sha256hex toNum r2Enabled dir now records buf fields hu
    cases buf with
    | none => simpa only [ghostHandler] using hu
    | some b =>
        rcases hk : requiredFields.find? (fun k => (fields k).isNone)
          with _ | k
        · by_cases hne : sha256hex b ≠ (ghostParsed toNum fields b).provided
          · simpa only [ghostHandler, hk, if_pos hne] using hu
          · by_cases hex : (records.find? (ghostKeyMatch
                (ghostParsed toNum fields b))).isSome = true
            · simp only [ghostHandler, hk, if_neg hne, hex, if_true]
              exact pairwise_updateFirst hu (fun a b h => h)
                (fun a b h => h)
            · have hnone : records.find? (ghostKeyMatch
                  (ghostParsed toNum fields b)) = none :=
                Option.not_isSome_iff_eq_none.mp (by simpa using hex)
              simp only [ghostHandler, hk, if_neg hne, hex,
                Bool.false_eq_true, if_false]
              exact keyUnique_append_ghost _ _ now hu hnone
        · simpa only [ghostHandler, hk] using hu

/-- Witness for `key_uniqueness_amended`: the empty collection satisfies
the invariant, and so does the collection after a concrete submit. -/
theorem key_uniqueness_amended_witness :
    keyUnique ([] : List Record) ∧
    keyUnique (submit [] samplePayload "t0").store :=
  ⟨List.Pairwise.nil,
    key_uniqueness_amended.1 [] samplePayload "t0" List.Pairwise.nil⟩

end TsRequiem
